import Mathlib

/-!
Shallow embedding of the geometric-normalization and render-planning core of
src/script.py (a Blender batch-render script), together with theorems checking
the natural-language specification against it.

Conventions of the embedding:
* Python floats are modelled as exact rationals (ℚ).
* A Python dict with the three axis keys and optional float values is modelled
  as a function Axis → Option (Option ℚ): `none` means the key is absent,
  `some none` means the key is present with value None, and `some (some v)`
  means the key is present with the float v.
* Python lists of floats are Lean lists; Python min/max over a non-empty
  sequence is a left fold, as in CPython.
* Side effects on the Blender scene (applying the scale and the translation
  to the object) are modelled by returning the scale factor and the
  translation vector in the result record.
-/

namespace CarversGuide

attribute [local semireducible] Rat.add Rat.sub Rat.mul Rat.inv

/-- The three dimension names used throughout src/script.py
("width" = X extent, "depth" = Y extent, "height" = Z extent). -/
inductive Axis where
  | width
  | depth
  | height
deriving DecidableEq, Fintype, Repr

/-- A point in 3-space, modelling mathutils.Vector with exact coordinates. -/
structure Pt where
  x : ℚ
  y : ℚ
  z : ℚ
deriving DecidableEq, Repr

/-- Left fold of `min`, the semantics of Python's min() over a non-empty
sequence with initial element x. -/
def pyMin (x : ℚ) : List ℚ → ℚ
  | [] => x
  | y :: l => pyMin (min x y) l

/-- Left fold of `max`, the semantics of Python's max() over a non-empty
sequence with initial element x. -/
def pyMax (x : ℚ) : List ℚ → ℚ
  | [] => x
  | y :: l => pyMax (max x y) l

/-- Python min() applied to a list; the script only ever applies it to
non-empty lists, the [] case is an unreachable default. -/
def listMin : List ℚ → ℚ
  | [] => 1
  | x :: l => pyMin x l

/-- Python max() applied to a list; the script only ever applies it to
non-empty lists, the [] case is an unreachable default. -/
def listMax : List ℚ → ℚ
  | [] => 0
  | x :: l => pyMax x l

/-- The list of one coordinate of the 8 world-space bounding-box corners,
as iterated by the generator expressions in lines 170-172 of script.py. -/
def corner_list (bbox : Fin 8 → Pt) (coord : Pt → ℚ) : List ℚ :=
  (List.finRange 8).map (fun i => coord (bbox i))

/-- model_sizes (script.py lines 169-173): per-axis extent of the world-space
bounding box, max minus min of the corner coordinates
(X → width, Y → depth, Z → height). -/
def model_sizes (bbox : Fin 8 → Pt) : Axis → ℚ
  | Axis.width => listMax (corner_list bbox Pt.x) - listMin (corner_list bbox Pt.x)
  | Axis.depth => listMax (corner_list bbox Pt.y) - listMin (corner_list bbox Pt.y)
  | Axis.height => listMax (corner_list bbox Pt.z) - listMin (corner_list bbox Pt.z)

/-- The fixed iteration order of the three axis keys, matching the insertion
order of the model_sizes dict (lines 169-173) and the explicit list in
line 192 of script.py. -/
def axes : List Axis := [Axis.width, Axis.depth, Axis.height]

/-- provided_dims (script.py line 185): the number of dict entries whose value
is present and not None. -/
def provided_dims (target_dims : Axis → Option (Option ℚ)) : ℕ :=
  (axes.filter fun a =>
    match target_dims a with
    | some (some _) => true
    | _ => false).length

/-- scales (script.py line 190): the list of candidate ratios
target_dims[dim] / model_sizes[dim] over the dict keys whose value is not
None. -/
def scales (ms : Axis → ℚ) (target_dims : Axis → Option (Option ℚ)) : List ℚ :=
  axes.filterMap fun a =>
    match target_dims a with
    | some (some v) => some (v / ms a)
    | _ => none

/-- The scale-solving block of center_and_align (script.py lines 184-193):
returns the uniform scale factor together with the final target dimensions.
When no dimension is provided the scale is 1.0 and the final dimensions are a
copy of model_sizes; otherwise the scale is the minimum candidate ratio and
each final dimension is target_dims.get(dim, model_sizes[dim] * scale) —
note that dict.get returns the stored value (possibly None) whenever the key
is present. -/
def solve_scale (ms : Axis → ℚ) (target_dims : Axis → Option (Option ℚ)) :
    ℚ × (Axis → Option ℚ) :=
  if provided_dims target_dims = 0 then
    (1, fun a => some (ms a))
  else
    let scale := listMin (scales ms target_dims)
    (scale, fun a => (target_dims a).getD (some (ms a * scale)))

/-- The ValueError raised at script.py line 178 when a model dimension is
zero, tagged with the offending axis. -/
inductive AlignError where
  | degenerate (dim : Axis)
deriving DecidableEq, Repr

/-- The observable outcome of center_and_align: its two returned dicts
(final_target_dims, scaled_dims) together with the uniform scale applied to
the object (line 196) and the translation stored into obj.location
(line 201). -/
structure AlignResult where
  final_target_dims : Axis → Option ℚ
  scaled_dims : Axis → ℚ
  scale : ℚ
  translation : Pt

/-- Uniform scaling of the bounding-box corners about the origin: the effect
of obj.scale = (s, s, s) followed by transform_apply on an object located at
the origin (script.py lines 196-198). -/
def scale_points (s : ℚ) (bbox : Fin 8 → Pt) : Fin 8 → Pt :=
  fun i => ⟨s * (bbox i).x, s * (bbox i).y, s * (bbox i).z⟩

/-- center (script.py line 200): the componentwise arithmetic mean of the 8
bounding-box corners, sum(bbox, Vector((0,0,0))) / 8.0. -/
def centroid (ps : Fin 8 → Pt) : Pt :=
  ⟨(∑ i, (ps i).x) / 8, (∑ i, (ps i).y) / 8, (∑ i, (ps i).z) / 8⟩

/-- Translating every bounding-box corner by t: the effect on the world-space
bounding box of setting obj.location = t (script.py line 201). -/
def translate_points (t : Pt) (ps : Fin 8 → Pt) : Fin 8 → Pt :=
  fun i => ⟨(ps i).x + t.x, (ps i).y + t.y, (ps i).z + t.z⟩

/-- center_and_align (script.py lines 158-206), starting from the world-space
bounding box of the imported object. It computes model_sizes, raises
(Except.error) on the first axis whose size is zero in the dict iteration
order width, depth, height (lines 176-178), then runs the scale solver
(lines 184-193), scales the corners, and sets the translation to the negated
centroid of the post-scale bounding box (lines 196-201). -/
def center_and_align (bbox : Fin 8 → Pt) (target_dims : Axis → Option (Option ℚ)) :
    Except AlignError AlignResult :=
  let ms := model_sizes bbox
  match axes.find? (fun a => decide (ms a = 0)) with
  | some a => Except.error (AlignError.degenerate a)
  | none =>
    let r := solve_scale ms target_dims
    let scaled := scale_points r.1 bbox
    let center := centroid scaled
    Except.ok
      { final_target_dims := r.2
        scaled_dims := fun a => ms a * r.1
        scale := r.1
        translation := ⟨-center.x, -center.y, -center.z⟩ }

/-- The five fixed orthographic views of CONFIG (script.py lines 20-26). -/
inductive View where
  | front
  | back
  | left
  | right
  | top
deriving DecidableEq, Fintype, Repr

/-- The per-view axis pair of CONFIG["views"]: which final dimension supplies
the physical render width and which the render height. -/
structure ViewAxes where
  width : Axis
  height : Axis
deriving DecidableEq, Repr

/-- CONFIG["views"] (script.py lines 20-26). -/
def views_config : View → ViewAxes
  | View.front => ⟨Axis.width, Axis.height⟩
  | View.back => ⟨Axis.width, Axis.height⟩
  | View.left => ⟨Axis.depth, Axis.height⟩
  | View.right => ⟨Axis.depth, Axis.height⟩
  | View.top => ⟨Axis.width, Axis.depth⟩

/-- The camera orthographic scale set by position_camera (script.py
lines 286-290): a conditional chain on the view name over the resolved
dimensions dict. -/
def ortho_scale (view_name : View) (dimensions : Axis → ℚ) : ℚ :=
  if view_name = View.front ∨ view_name = View.back then
    max (dimensions Axis.width) (dimensions Axis.height)
  else if view_name = View.left ∨ view_name = View.right then
    max (dimensions Axis.depth) (dimensions Axis.height)
  else
    max (dimensions Axis.width) (dimensions Axis.depth)

/-- Python's int() applied to a real value: truncation toward zero. -/
def pyInt (q : ℚ) : ℤ :=
  if 0 ≤ q then ⌊q⌋ else ⌈q⌉

/-- The render settings written to the scene by set_render_settings
(script.py lines 299-306). -/
structure RenderSettings where
  resolution_x : ℤ
  resolution_y : ℤ
  resolution_percentage : ℕ
  file_format : String
  filepath : String
deriving DecidableEq, Repr

/-- set_render_settings (script.py lines 299-306): pixel dimensions are
int(mm * dpi / 25.4) on both axes; the function performs no validation of
dpi or of the computed resolutions. -/
def set_render_settings (view_name : String) (width_mm height_mm : ℚ) (dpi : ℤ)
    (output_dir : String) : RenderSettings :=
  { resolution_x := pyInt (width_mm * (dpi : ℚ) / (254 / 10))
    resolution_y := pyInt (height_mm * (dpi : ℚ) / (254 / 10))
    resolution_percentage := 100
    file_format := "PNG"
    filepath := output_dir ++ "/" ++ view_name ++ ".png" }

/-- The name string of each view, the keys of CONFIG["views"]. -/
def view_name_str : View → String
  | View.front => "front"
  | View.back => "back"
  | View.left => "left"
  | View.right => "right"
  | View.top => "top"

/-- render_view (script.py lines 308-315): looks up the physical render
width and height from the resolved dimensions via CONFIG["views"], positions
the camera (whose orthographic scale is ortho_scale), and configures the
render settings. Returns the render settings and the orthographic scale. -/
def render_view (view_name : View) (dimensions : Axis → ℚ) (dpi : ℤ)
    (output_dir : String) : RenderSettings × ℚ :=
  let width_mm := dimensions (views_config view_name).width
  let height_mm := dimensions (views_config view_name).height
  (set_render_settings (view_name_str view_name) width_mm height_mm dpi output_dir,
    ortho_scale view_name dimensions)

/-- Concrete extents from the spec's worked scenario:
width 50, depth 30, height 80. -/
def msW : Axis → ℚ
  | Axis.width => 50
  | Axis.depth => 30
  | Axis.height => 80

/-- Concrete target dict from the spec's worked scenario: only width = 100. -/
def tdW : Axis → Option (Option ℚ)
  | Axis.width => some (some 100)
  | _ => none

/-- A concrete bounding box: the cube [0,2] × [0,2] × [0,2]. -/
def cubeBox : Fin 8 → Pt :=
  ![⟨0, 0, 0⟩, ⟨2, 0, 0⟩, ⟨0, 2, 0⟩, ⟨2, 2, 0⟩,
    ⟨0, 0, 2⟩, ⟨2, 0, 2⟩, ⟨0, 2, 2⟩, ⟨2, 2, 2⟩]

/-- A concrete degenerate bounding box: flat along Z
(the square [0,1] × [0,1] at height 0). -/
def flatBox : Fin 8 → Pt :=
  ![⟨0, 0, 0⟩, ⟨1, 0, 0⟩, ⟨0, 1, 0⟩, ⟨1, 1, 0⟩,
    ⟨0, 0, 0⟩, ⟨1, 0, 0⟩, ⟨0, 1, 0⟩, ⟨1, 1, 0⟩]

/-- The bounding box of the block [0,50] × [0,30] × [0,80]
(width 50, depth 30, height 80). -/
def bbox9 : Fin 8 → Pt :=
  ![⟨0, 0, 0⟩, ⟨50, 0, 0⟩, ⟨0, 30, 0⟩, ⟨50, 30, 0⟩,
    ⟨0, 0, 80⟩, ⟨50, 0, 80⟩, ⟨0, 30, 80⟩, ⟨50, 30, 80⟩]

/-- A target dict whose width key is present but None while height is set:
the shape reaching center_and_align when a caller passes an explicit None. -/
def td9 : Axis → Option (Option ℚ)
  | Axis.width => some none
  | Axis.height => some (some 160)
  | Axis.depth => none

theorem pyMin_le (x : ℚ) (l : List ℚ) : pyMin x l ≤ x ∧ ∀ y ∈ l, pyMin x l ≤ y := by
  induction l generalizing x with
  | nil => exact ⟨le_refl x, by intro y hy; exact absurd hy (List.not_mem_nil y)⟩
  | cons y l ih =>
    obtain ⟨h1, h2⟩ := ih (min x y)
    refine ⟨h1.trans (min_le_left x y), ?_⟩
    intro z hz
    rcases List.mem_cons.mp hz with rfl | hz
    · exact h1.trans (min_le_right x z)
    · exact h2 z hz

theorem pyMin_mem (x : ℚ) (l : List ℚ) : pyMin x l = x ∨ pyMin x l ∈ l := by
  induction l generalizing x with
  | nil => exact Or.inl rfl
  | cons y l ih =>
    have hstep : pyMin x (y :: l) = pyMin (min x y) l := rfl
    rcases ih (min x y) with h | h
    · rcases min_choice x y with hm | hm
      · exact Or.inl (by rw [hstep, h, hm])
      · exact Or.inr (by rw [hstep, h, hm]; exact List.mem_cons_self y l)
    · exact Or.inr (List.mem_cons_of_mem y (hstep ▸ h))

theorem listMin_spec {l : List ℚ} (h : l ≠ []) :
    listMin l ∈ l ∧ ∀ y ∈ l, listMin l ≤ y := by
  match l with
  | [] => exact absurd rfl h
  | x :: t =>
    have hle := pyMin_le x t
    have hm : listMin (x :: t) = pyMin x t := rfl
    constructor
    · rcases pyMin_mem x t with he | he
      · rw [hm, he]
        exact List.mem_cons_self x t
      · rw [hm]
        exact List.mem_cons_of_mem x he
    · intro y hy
      rcases List.mem_cons.mp hy with rfl | hy
      · exact hm ▸ hle.1
      · exact hm ▸ hle.2 y hy

theorem mem_axes (a : Axis) : a ∈ axes := by
  cases a <;> simp [axes]

theorem mem_scales {ms : Axis → ℚ} {td : Axis → Option (Option ℚ)} {q : ℚ} :
    q ∈ scales ms td ↔ ∃ a v, td a = some (some v) ∧ q = v / ms a := by
  simp only [scales, List.mem_filterMap]
  constructor
  · rintro ⟨a, -, hf⟩
    rcases htd : td a with - | (- | v) <;> rw [htd] at hf
    · exact absurd hf (by simp)
    · exact absurd hf (by simp)
    · exact ⟨a, v, htd, by injection hf with h; exact h.symm⟩
  · rintro ⟨a, v, hv, rfl⟩
    exact ⟨a, mem_axes a, by rw [hv]⟩

theorem provided_dims_ne_zero {td : Axis → Option (Option ℚ)}
    (h : ∃ a v, td a = some (some v)) : provided_dims td ≠ 0 := by
  obtain ⟨a, v, hav⟩ := h
  simp only [provided_dims, ne_eq, List.length_eq_zero]
  intro hnil
  have ha : a ∈ axes.filter fun a =>
      match td a with
      | some (some _) => true
      | _ => false :=
    List.mem_filter.mpr ⟨mem_axes a, by rw [hav]⟩
  rw [hnil] at ha
  exact absurd ha (List.not_mem_nil a)

theorem provided_dims_eq_zero {td : Axis → Option (Option ℚ)}
    (h : ∀ a, td a = none) : provided_dims td = 0 := by
  simp only [provided_dims, List.length_eq_zero, List.filter_eq_nil_iff]
  intro a _
  rw [h a]
  simp

theorem scales_ne_nil {ms : Axis → ℚ} {td : Axis → Option (Option ℚ)}
    (h : ∃ a v, td a = some (some v)) : scales ms td ≠ [] := by
  obtain ⟨a, v, hav⟩ := h
  intro hnil
  have hmem : v / ms a ∈ scales ms td := mem_scales.mpr ⟨a, v, hav, rfl⟩
  rw [hnil] at hmem
  exact absurd hmem (List.not_mem_nil _)

theorem solve_scale_eq {ms : Axis → ℚ} {td : Axis → Option (Option ℚ)}
    (h : ∃ a v, td a = some (some v)) :
    solve_scale ms td =
      (listMin (scales ms td),
        fun a => (td a).getD (some (ms a * listMin (scales ms td)))) := by
  rw [solve_scale, if_neg (provided_dims_ne_zero h)]

theorem scale_le {ms : Axis → ℚ} {td : Axis → Option (Option ℚ)}
    (h : ∃ a v, td a = some (some v)) :
    ∀ a v, td a = some (some v) → (solve_scale ms td).1 ≤ v / ms a := by
  intro a v hav
  rw [solve_scale_eq h]
  exact (listMin_spec (scales_ne_nil h)).2 _ (mem_scales.mpr ⟨a, v, hav, rfl⟩)

theorem scale_attained {ms : Axis → ℚ} {td : Axis → Option (Option ℚ)}
    (h : ∃ a v, td a = some (some v)) :
    ∃ a v, td a = some (some v) ∧ (solve_scale ms td).1 = v / ms a := by
  rw [solve_scale_eq h]
  obtain ⟨a, v, hav, he⟩ := mem_scales.mp (listMin_spec (scales_ne_nil h)).1
  exact ⟨a, v, hav, he⟩

theorem final_set {ms : Axis → ℚ} {td : Axis → Option (Option ℚ)}
    (h : ∃ a v, td a = some (some v)) :
    ∀ a v, td a = some (some v) → (solve_scale ms td).2 a = some v := by
  intro a v hav
  rw [solve_scale_eq h]
  simp [hav]

theorem final_unset {ms : Axis → ℚ} {td : Axis → Option (Option ℚ)}
    (h : ∃ a v, td a = some (some v)) :
    ∀ a, td a = none →
      (solve_scale ms td).2 a = some (ms a * (solve_scale ms td).1) := by
  intro a ha
  rw [solve_scale_eq h]
  simp [ha]

theorem scale_pos {ms : Axis → ℚ} {td : Axis → Option (Option ℚ)}
    (hms : ∀ a, 0 < ms a) (hpos : ∀ a v, td a = some (some v) → 0 < v)
    (h : ∃ a v, td a = some (some v)) : 0 < (solve_scale ms td).1 := by
  obtain ⟨a, v, hav, he⟩ := @scale_attained ms td h
  rw [he]
  exact div_pos (hpos a v hav) (hms a)

theorem binding_axis_eq {ms : Axis → ℚ} (a : Axis) (v : ℚ) (hms : ∀ a, 0 < ms a) :
    ms a * (v / ms a) = v := by
  rw [mul_comm, div_mul_cancel₀ v (ne_of_gt (hms a))]

theorem tdW_pos : ∀ a v, tdW a = some (some v) → 0 < v := by
  intro a v hv
  cases a
  · simp only [tdW] at hv
    injection hv with hv
    injection hv with hv
    rw [← hv]
    norm_num
  · exact Option.noConfusion hv
  · exact Option.noConfusion hv

/-- C1: for strictly positive extents and a target dict whose present axes
all carry strictly positive values (never an explicit None), the scale solver
of center_and_align returns the minimum ratio v / ms a over the set axes —
it is a lower bound of the ratios and is attained at some set axis — the
final dimension of every set axis is its target value, the final dimension of
every unset axis is its extent times the scale, and when no axis is set the
scale is 1 and the final dimensions equal the extents. -/
theorem scale_solver_spec (ms : Axis → ℚ) (td : Axis → Option (Option ℚ))
    (hms : ∀ a, 0 < ms a)
    (hpos : ∀ a v, td a = some (some v) → 0 < v)
    (hnn : ∀ a, td a ≠ some none) :
    ((∃ a v, td a = some (some v)) →
      (∀ a v, td a = some (some v) → (solve_scale ms td).1 ≤ v / ms a) ∧
      (∃ a v, td a = some (some v) ∧ (solve_scale ms td).1 = v / ms a) ∧
      (∀ a v, td a = some (some v) → (solve_scale ms td).2 a = some v) ∧
      (∀ a, td a = none →
        (solve_scale ms td).2 a = some (ms a * (solve_scale ms td).1))) ∧
    ((∀ a, td a = none) →
      (solve_scale ms td).1 = 1 ∧ ∀ a, (solve_scale ms td).2 a = some (ms a)) := by
  constructor
  · intro h
    exact ⟨scale_le h, scale_attained h, final_set h, final_unset h⟩
  · intro h
    rw [solve_scale, if_pos (provided_dims_eq_zero h)]
    exact ⟨rfl, fun a => rfl⟩

/-- Witness for C1 at the spec's worked scenario: extents 50/30/80 with only
width = 100 requested; the solver's scale is bounded by the width ratio
100 / 50 and the unset height resolves to 80 times the scale. -/
theorem scale_solver_spec_witness :
    (∀ a, 0 < msW a) ∧ (solve_scale msW tdW).1 ≤ 100 / 50 ∧
      (solve_scale msW tdW).2 Axis.height =
        some (msW Axis.height * (solve_scale msW tdW).1) := by
  have h := scale_solver_spec msW tdW (by decide) tdW_pos (by decide)
  have hne : ∃ a v, tdW a = some (some v) := ⟨Axis.width, 100, rfl⟩
  exact ⟨by decide, (h.1 hne).1 Axis.width 100 rfl, (h.1 hne).2.2.2 Axis.height rfl⟩

/-- C2: under the same hypotheses as C1, every resolved final dimension is at
least the corresponding scaled extent; equality holds on at least one axis,
on every unset axis, and on every set axis whose ratio attains the scale. -/
theorem scale_solver_envelope (ms : Axis → ℚ) (td : Axis → Option (Option ℚ))
    (hms : ∀ a, 0 < ms a)
    (hpos : ∀ a v, td a = some (some v) → 0 < v)
    (hnn : ∀ a, td a ≠ some none)
    (hne : ∃ a v, td a = some (some v)) :
    (∀ a, ∃ d, (solve_scale ms td).2 a = some d ∧ ms a * (solve_scale ms td).1 ≤ d) ∧
    (∃ a, (solve_scale ms td).2 a = some (ms a * (solve_scale ms td).1)) ∧
    (∀ a, td a = none →
      (solve_scale ms td).2 a = some (ms a * (solve_scale ms td).1)) ∧
    (∀ a v, td a = some (some v) → (solve_scale ms td).1 = v / ms a →
      (solve_scale ms td).2 a = some (ms a * (solve_scale ms td).1)) := by
  have hset : ∀ a v, td a = some (some v) → (solve_scale ms td).1 = v / ms a →
      (solve_scale ms td).2 a = some (ms a * (solve_scale ms td).1) := by
    intro a v hav hs
    rw [final_set hne a v hav, hs, binding_axis_eq a v hms]
  refine ⟨?_, ?_, final_unset hne, hset⟩
  · intro a
    rcases hav : td a with - | (- | v)
    · exact ⟨ms a * (solve_scale ms td).1, final_unset hne a hav, le_refl _⟩
    · exact absurd hav (hnn a)
    · refine ⟨v, final_set hne a v hav, ?_⟩
      calc ms a * (solve_scale ms td).1
          ≤ ms a * (v / ms a) :=
            mul_le_mul_of_nonneg_left (scale_le hne a v hav) (le_of_lt (hms a))
        _ = v := binding_axis_eq a v hms
  · obtain ⟨a, v, hav, hs⟩ := @scale_attained ms td hne
    exact ⟨a, hset a v hav hs⟩

/-- Witness for C2 at the worked scenario: every final dimension dominates
the scaled extent, with equality somewhere. -/
theorem scale_solver_envelope_witness :
    (∀ a, 0 < msW a) ∧
      (∀ a, ∃ d, (solve_scale msW tdW).2 a = some d ∧
        msW a * (solve_scale msW tdW).1 ≤ d) ∧
      (∃ a, (solve_scale msW tdW).2 a = some (msW a * (solve_scale msW tdW).1)) := by
  have h := scale_solver_envelope msW tdW (by decide) tdW_pos
    (by decide) ⟨Axis.width, 100, rfl⟩
  exact ⟨by decide, h.1, h.2.1⟩

theorem second_run_has_set_axis (ms : Axis → ℚ) (td : Axis → Option (Option ℚ))
    (hne : ∃ a v, td a = some (some v)) :
    ∃ a v, (fun a => some ((solve_scale ms td).2 a)) a = some (some v) := by
  obtain ⟨a, v, hav⟩ := hne
  refine ⟨a, v, ?_⟩
  show some ((solve_scale ms td).2 a) = some (some v)
  rw [final_set ⟨a, v, hav⟩ a v hav]

theorem second_run_ratios_ge_one (ms : Axis → ℚ) (td : Axis → Option (Option ℚ))
    (hms : ∀ a, 0 < ms a)
    (hpos : ∀ a v, td a = some (some v) → 0 < v)
    (hnn : ∀ a, td a ≠ some none)
    (hne : ∃ a v, td a = some (some v)) :
    ∀ q ∈ scales (fun a => ms a * (solve_scale ms td).1)
      (fun a => some ((solve_scale ms td).2 a)), 1 ≤ q := by
  intro q hq
  obtain ⟨a, w, haw, hqe⟩ := mem_scales.mp hq
  have haw' : (solve_scale ms td).2 a = some w := by
    injection haw with h
  have hmulpos : 0 < ms a * (solve_scale ms td).1 :=
    mul_pos (hms a) (scale_pos hms hpos hne)
  rw [hqe]
  show 1 ≤ w / (ms a * (solve_scale ms td).1)
  rw [one_le_div hmulpos]
  rcases hav : td a with - | (- | v)
  · rw [final_unset hne a hav] at haw'
    injection haw' with hw
    exact le_of_eq hw
  · exact absurd hav (hnn a)
  · rw [final_set hne a v hav] at haw'
    injection haw' with hw
    rw [← hw]
    calc ms a * (solve_scale ms td).1
        ≤ ms a * (v / ms a) :=
          mul_le_mul_of_nonneg_left (scale_le hne a v hav) (le_of_lt (hms a))
      _ = v := binding_axis_eq a v hms

theorem second_run_ratio_attained (ms : Axis → ℚ) (td : Axis → Option (Option ℚ))
    (hms : ∀ a, 0 < ms a)
    (hpos : ∀ a v, td a = some (some v) → 0 < v)
    (hne : ∃ a v, td a = some (some v)) :
    ∃ q ∈ scales (fun a => ms a * (solve_scale ms td).1)
      (fun a => some ((solve_scale ms td).2 a)), q = 1 := by
  obtain ⟨a, v, hav, hs⟩ := @scale_attained ms td hne
  refine ⟨v / (ms a * (solve_scale ms td).1), ?_, ?_⟩
  · refine mem_scales.mpr ⟨a, v, ?_, rfl⟩
    show some ((solve_scale ms td).2 a) = some (some v)
    rw [final_set hne a v hav]
  · rw [hs, binding_axis_eq a v hms]
    exact div_self (ne_of_gt (hpos a v hav))

/-- C6: running the scale solver a second time on the scaled extents, with
every axis of the target dict set to the first run's final dimensions, yields
scale factor 1 and final dimensions identical to the first run's. -/
theorem scale_solver_fixed_point (ms : Axis → ℚ) (td : Axis → Option (Option ℚ))
    (hms : ∀ a, 0 < ms a)
    (hpos : ∀ a v, td a = some (some v) → 0 < v)
    (hnn : ∀ a, td a ≠ some none)
    (hne : ∃ a v, td a = some (some v)) :
    (solve_scale (fun a => ms a * (solve_scale ms td).1)
      (fun a => some ((solve_scale ms td).2 a))).1 = 1 ∧
    ∀ a, (solve_scale (fun a => ms a * (solve_scale ms td).1)
      (fun a => some ((solve_scale ms td).2 a))).2 a = (solve_scale ms td).2 a := by
  have hne2 := second_run_has_set_axis ms td hne
  constructor
  · have hnil := @scales_ne_nil (fun a => ms a * (solve_scale ms td).1) (fun a => some ((solve_scale ms td).2 a)) hne2
    have hmem := (listMin_spec hnil).1
    have hlb := (listMin_spec hnil).2
    obtain ⟨q, hq, hq1⟩ := second_run_ratio_attained ms td hms hpos hne
    rw [solve_scale_eq hne2]
    exact le_antisymm (le_of_le_of_eq (hlb q hq) hq1)
      (second_run_ratios_ge_one ms td hms hpos hnn hne _ hmem)
  · intro a
    rw [solve_scale_eq hne2]
    rfl

/-- Witness for C6 at the worked scenario: re-solving with the previous
final dimensions as the full target yields scale 1. -/
theorem scale_solver_fixed_point_witness :
    (∀ a, 0 < msW a) ∧
      (solve_scale (fun a => msW a * (solve_scale msW tdW).1)
        (fun a => some ((solve_scale msW tdW).2 a))).1 = 1 := by
  have h := scale_solver_fixed_point msW tdW (by decide) tdW_pos (by decide)
    ⟨Axis.width, 100, rfl⟩
  exact ⟨by decide, h.1⟩

/-- C4: whenever some extent of the bounding box is zero, center_and_align
raises the degenerate-dimension error for a zero axis, and its outcome does
not depend on the target dict at all — the check precedes the scale solving,
so no ratio with a zero denominator is ever formed. -/
theorem degenerate_before_solving (bbox : Fin 8 → Pt)
    (td td' : Axis → Option (Option ℚ))
    (h : ∃ a, model_sizes bbox a = 0) :
    (∃ a, center_and_align bbox td = Except.error (AlignError.degenerate a) ∧
      model_sizes bbox a = 0) ∧
    center_and_align bbox td = center_and_align bbox td' := by
  obtain ⟨a0, ha0⟩ := h
  rcases hfind : axes.find? (fun a => decide (model_sizes bbox a = 0)) with - | b
  · exfalso
    have hnone := List.find?_eq_none.mp hfind a0 (mem_axes a0)
    exact hnone (decide_eq_true ha0)
  · have hpb := List.find?_some hfind
    simp only [decide_eq_true_eq] at hpb
    have hb : model_sizes bbox b = 0 := hpb
    have hred : ∀ t : Axis → Option (Option ℚ),
        center_and_align bbox t = Except.error (AlignError.degenerate b) := by
      intro t
      simp only [center_and_align]
      rw [hfind]
    exact ⟨⟨b, hred td, hb⟩, (hred td).trans (hred td').symm⟩

/-- Witness for C4 at a bounding box that is flat along Z: the height extent
is zero, center_and_align fails with the degenerate error for a zero axis,
and the result is the same for two different target dicts. -/
theorem degenerate_before_solving_witness :
    (∃ a, model_sizes flatBox a = 0) ∧
      (∃ a, center_and_align flatBox tdW = Except.error (AlignError.degenerate a) ∧
        model_sizes flatBox a = 0) ∧
      center_and_align flatBox tdW = center_and_align flatBox (fun _ => none) :=
  ⟨⟨Axis.height, by decide⟩,
    degenerate_before_solving flatBox tdW (fun _ => none) ⟨Axis.height, by decide⟩⟩

theorem centroid_translate (t : Pt) (ps : Fin 8 → Pt) :
    centroid (translate_points t ps) =
      ⟨(centroid ps).x + t.x, (centroid ps).y + t.y, (centroid ps).z + t.z⟩ := by
  simp only [centroid, translate_points, Pt.mk.injEq]
  refine ⟨?_, ?_, ?_⟩ <;>
  · rw [Finset.sum_add_distrib, Finset.sum_const, Finset.card_univ, Fintype.card_fin,
      nsmul_eq_mul]
    push_cast
    ring

/-- C5: for a mesh with strictly positive extents, center_and_align succeeds,
its translation is the negated componentwise mean of the 8 corners of the
bounding box recomputed after scaling, and the centroid of the translated
post-scale bounding box is exactly the zero vector. -/
theorem centering_translation (bbox : Fin 8 → Pt) (td : Axis → Option (Option ℚ))
    (hpos : ∀ a, 0 < model_sizes bbox a) :
    ∃ r : AlignResult, center_and_align bbox td = Except.ok r ∧
      r.translation = ⟨-(centroid (scale_points r.scale bbox)).x,
        -(centroid (scale_points r.scale bbox)).y,
        -(centroid (scale_points r.scale bbox)).z⟩ ∧
      centroid (translate_points r.translation (scale_points r.scale bbox)) =
        ⟨0, 0, 0⟩ := by
  have hfind : axes.find? (fun a => decide (model_sizes bbox a = 0)) = none := by
    apply List.find?_eq_none.mpr
    intro a _
    simp only [decide_eq_true_eq]
    exact ne_of_gt (hpos a)
  have hok : center_and_align bbox td =
      Except.ok
        { final_target_dims := (solve_scale (model_sizes bbox) td).2
          scaled_dims := fun a =>
            model_sizes bbox a * (solve_scale (model_sizes bbox) td).1
          scale := (solve_scale (model_sizes bbox) td).1
          translation :=
            ⟨-(centroid (scale_points (solve_scale (model_sizes bbox) td).1 bbox)).x,
              -(centroid (scale_points (solve_scale (model_sizes bbox) td).1 bbox)).y,
              -(centroid (scale_points (solve_scale (model_sizes bbox) td).1 bbox)).z⟩ } := by
    simp only [center_and_align]
    rw [hfind]
  refine ⟨_, hok, rfl, ?_⟩
  rw [centroid_translate]
  simp [Pt.mk.injEq]

/-- Witness for C5 at the cube [0,2]³ with the worked-scenario target dict. -/
theorem centering_translation_witness :
    (∀ a, 0 < model_sizes cubeBox a) ∧
      ∃ r : AlignResult, center_and_align cubeBox tdW = Except.ok r ∧
        r.translation = ⟨-(centroid (scale_points r.scale cubeBox)).x,
          -(centroid (scale_points r.scale cubeBox)).y,
          -(centroid (scale_points r.scale cubeBox)).z⟩ ∧
        centroid (translate_points r.translation (scale_points r.scale cubeBox)) =
          ⟨0, 0, 0⟩ :=
  ⟨by decide, centering_translation cubeBox tdW (by decide)⟩

/-- C7: for every resolved dimensions dict, each of the five views draws its
render width and height from the fixed CONFIG axis pair (front/back:
width × height, left/right: depth × height, top: width × depth) and the
camera orthographic scale set by position_camera equals the maximum of those
two dimensions. -/
theorem view_table_ortho (dimensions : Axis → ℚ) :
    (views_config View.front = ⟨Axis.width, Axis.height⟩ ∧
      ortho_scale View.front dimensions =
        max (dimensions Axis.width) (dimensions Axis.height)) ∧
    (views_config View.back = ⟨Axis.width, Axis.height⟩ ∧
      ortho_scale View.back dimensions =
        max (dimensions Axis.width) (dimensions Axis.height)) ∧
    (views_config View.left = ⟨Axis.depth, Axis.height⟩ ∧
      ortho_scale View.left dimensions =
        max (dimensions Axis.depth) (dimensions Axis.height)) ∧
    (views_config View.right = ⟨Axis.depth, Axis.height⟩ ∧
      ortho_scale View.right dimensions =
        max (dimensions Axis.depth) (dimensions Axis.height)) ∧
    (views_config View.top = ⟨Axis.width, Axis.depth⟩ ∧
      ortho_scale View.top dimensions =
        max (dimensions Axis.width) (dimensions Axis.depth)) ∧
    (∀ v : View, (render_view v dimensions 300 "output").2 =
      max (dimensions (views_config v).width) (dimensions (views_config v).height)) := by
  refine ⟨⟨rfl, rfl⟩, ⟨rfl, rfl⟩, ⟨rfl, rfl⟩, ⟨rfl, rfl⟩, ⟨rfl, rfl⟩, ?_⟩
  intro v
  cases v <;> rfl

/-- C8: for strictly positive physical sizes and dpi, both pixel dimensions
of set_render_settings equal the floor of mm * dpi / 25.4 — the truncation
of int() coincides with the floor on both axes. -/
theorem pixel_dimensions_floor (v o : String) (w h : ℚ) (dpi : ℤ)
    (hw : 0 < w) (hh : 0 < h) (hd : 0 < dpi) :
    (set_render_settings v w h dpi o).resolution_x = ⌊w * (dpi : ℚ) / (254 / 10)⌋ ∧
    (set_render_settings v w h dpi o).resolution_y = ⌊h * (dpi : ℚ) / (254 / 10)⌋ := by
  have hdq : (0 : ℚ) < (dpi : ℚ) := by exact_mod_cast hd
  have hx : (0 : ℚ) ≤ w * (dpi : ℚ) / (254 / 10) :=
    le_of_lt (div_pos (mul_pos hw hdq) (by norm_num))
  have hy : (0 : ℚ) ≤ h * (dpi : ℚ) / (254 / 10) :=
    le_of_lt (div_pos (mul_pos hh hdq) (by norm_num))
  constructor
  · show pyInt (w * (dpi : ℚ) / (254 / 10)) = _
    rw [pyInt, if_pos hx]
  · show pyInt (h * (dpi : ℚ) / (254 / 10)) = _
    rw [pyInt, if_pos hy]

/-- Witness for C8 at the spec's worked scenario: a 100 mm × 160 mm view at
300 dpi maps to 1181 × 1889 pixels. -/
theorem pixel_dimensions_floor_witness :
    (0 : ℚ) < 100 ∧ (0 : ℤ) < 300 ∧
      (set_render_settings "front" 100 160 300 "output").resolution_x = 1181 ∧
      (set_render_settings "front" 100 160 300 "output").resolution_y = 1889 := by
  have h := pixel_dimensions_floor "front" "output" 100 160 300
    (by norm_num) (by norm_num) (by norm_num)
  exact ⟨by norm_num, by norm_num, h.1.trans (by decide), h.2.trans (by decide)⟩

/-- C10: with a positive dpi, any view whose physical size on an axis
satisfies 0 < mm * dpi < 25.4 gets pixel dimension 0 on that axis;
set_render_settings is a total function that just returns these resolutions,
enforcing no lower bound. -/
theorem low_size_zero_resolution (v o : String) (w h : ℚ) (dpi : ℤ)
    (hd : 0 < dpi) :
    (0 < w * (dpi : ℚ) → w * (dpi : ℚ) < 254 / 10 →
      (set_render_settings v w h dpi o).resolution_x = 0) ∧
    (0 < h * (dpi : ℚ) → h * (dpi : ℚ) < 254 / 10 →
      (set_render_settings v w h dpi o).resolution_y = 0) := by
  have key : ∀ m : ℚ, 0 < m * (dpi : ℚ) → m * (dpi : ℚ) < 254 / 10 →
      pyInt (m * (dpi : ℚ) / (254 / 10)) = 0 := by
    intro m h0 h1
    have hq0 : (0 : ℚ) ≤ m * (dpi : ℚ) / (254 / 10) :=
      le_of_lt (div_pos h0 (by norm_num))
    have hq1 : m * (dpi : ℚ) / (254 / 10) < 1 :=
      (div_lt_one (by norm_num)).mpr h1
    rw [pyInt, if_pos hq0]
    exact Int.floor_eq_zero_iff.mpr ⟨hq0, hq1⟩
  exact ⟨fun h0 h1 => key w h0 h1, fun h0 h1 => key h h0 h1⟩

/-- Witness for C10: a 0.01 mm wide view at 300 dpi (0.01 * 300 = 3 < 25.4)
renders at zero pixel width with no error. -/
theorem low_size_zero_resolution_witness :
    (0 : ℤ) < 300 ∧
      (set_render_settings "front" (1 / 100) 160 300 "output").resolution_x = 0 := by
  have h := low_size_zero_resolution "front" "output" (1 / 100) 160 300 (by norm_num)
  exact ⟨by norm_num, h.1 (by norm_num) (by norm_num)⟩

/-- Counterexample to C3 as stated: at dpi = 0 the resolution-mapping stage
raises nothing — no InvalidDpiError exists anywhere in script.py — and
instead produces the pixel dimensions 0 × 0. -/
theorem dpi_zero_produces_pixels :
    set_render_settings "front" 100 160 0 "output" =
      { resolution_x := 0
        resolution_y := 0
        resolution_percentage := 100
        file_format := "PNG"
        filepath := "output/front.png" } := by
  decide

/-- C3 amended: set_render_settings performs no dpi validation; for every
dpi ≤ 0 it still returns render settings, whose pixel dimensions
int(mm * dpi / 25.4) are ≤ 0 on both axes for positive physical sizes
(0 × 0 at dpi = 0). -/
theorem set_render_settings_no_dpi_check (v o : String) (w h : ℚ) (dpi : ℤ)
    (hw : 0 < w) (hh : 0 < h) (hd : dpi ≤ 0) :
    (set_render_settings v w h dpi o).resolution_x ≤ 0 ∧
    (set_render_settings v w h dpi o).resolution_y ≤ 0 := by
  have hdq : (dpi : ℚ) ≤ 0 := by exact_mod_cast hd
  have key : ∀ m : ℚ, 0 < m → pyInt (m * (dpi : ℚ) / (254 / 10)) ≤ 0 := by
    intro m hm
    have hq : m * (dpi : ℚ) / (254 / 10) ≤ 0 :=
      div_nonpos_of_nonpos_of_nonneg
        (mul_nonpos_of_nonneg_of_nonpos (le_of_lt hm) hdq) (by norm_num)
    rw [pyInt]
    rcases le_or_lt 0 (m * (dpi : ℚ) / (254 / 10)) with h0 | h0
    · rw [if_pos h0]
      exact Int.floor_nonpos hq
    · rw [if_neg (not_le.mpr h0)]
      exact Int.ceil_le.mpr (by exact_mod_cast hq)
  exact ⟨key w hw, key h hh⟩

/-- Witness for the amended C3 at dpi = 0. -/
theorem set_render_settings_no_dpi_check_witness :
    (0 : ℚ) < 100 ∧ (0 : ℤ) ≤ 0 ∧
      (set_render_settings "front" 100 160 0 "output").resolution_x ≤ 0 := by
  have h := set_render_settings_no_dpi_check "front" "output" 100 160 0
    (by norm_num) (by norm_num) (le_refl 0)
  exact ⟨by norm_num, le_refl 0, h.1⟩

/-- C9: at the public interface of center_and_align, a target dict with the
width key present but None and the height key set to 160 yields final target
dimensions whose width entry is None — not the scaled extent — while height
and depth resolve normally (scale 2 for the 50 × 30 × 80 block). -/
theorem none_axis_left_unresolved :
    ∃ r : AlignResult, center_and_align bbox9 td9 = Except.ok r ∧
      r.scale = 2 ∧
      r.final_target_dims Axis.width = none ∧
      r.final_target_dims Axis.width ≠ some (model_sizes bbox9 Axis.width * r.scale) ∧
      r.final_target_dims Axis.height = some 160 ∧
      r.final_target_dims Axis.depth = some 60 := by
  refine ⟨_, rfl, ?_, ?_, ?_, ?_, ?_⟩ <;> decide

end CarversGuide
